import Mathlib

/-!
Verification of the balance-reconciliation, recurring-date, budget-alert and
aggregation logic of a personal-finance web application.

The development shallowly embeds the server actions and scheduled jobs of the
repository:

* `calculateNextRecurringDate`, `isTransactionDue`, `isNewMonth`,
  `getMonthlyStats`, `processRecurringTransaction`, `checkBudgetAlerts`
  (from `src/lib/inngest/function.js`),
* `createTransaction`, `updateTransaction`, `bulkDeleteTransactions`,
  `updateDefaultAccount`, `createAccount` (from the server-action modules).

Money amounts (Prisma `Decimal` values, manipulated through `.toNumber()`)
are modelled as integers in a fixed smallest decimal unit; every embedded
operation only adds and subtracts amounts, so this is exact (the one
division, the budget percentage, is taken in `Rat`).  JavaScript `Date` values are
modelled at day granularity: a `JDate` records the observable getters
`getFullYear` / `getMonth` (0-based) / `getDate` (1-based), and the ECMAScript
`MakeDay` normalisation (month carry into the year, day-of-month overflow
rolling over into subsequent months) is implemented through the standard
civil-calendar <-> epoch-day conversion.  The persistent store is a pair of
lists (accounts, transactions); a Prisma `$transaction` block becomes a single
atomic state transition, and a thrown / rolled-back operation returns `none`.
-/

namespace Welth

/-- A JavaScript `Date`, at day granularity, described by its getters:
`year` = `getFullYear()`, `month` = `getMonth()` (0-based, January = 0),
`day` = `getDate()` (1-based). -/
structure JDate where
  year : Int
  month : Int
  day : Int
deriving DecidableEq, Repr

/-- Epoch-day number of the civil date `(y, m, d)` with `m` 1-based in 1..12
(day 0 is 1970-01-01); `d` may lie outside the month and contributes linearly,
exactly as in ECMAScript `MakeDay`.  Standard civil-from-days arithmetic. -/
def daysFromCivil (y m d : Int) : Int :=
  let y' := y - (if m ≤ 2 then 1 else 0)
  let era := y'.ediv 400
  let yoe := y' - era * 400
  let mp := (m + 9).emod 12
  let doy := (153 * mp + 2).ediv 5 + d - 1
  let doe := yoe * 365 + yoe.ediv 4 - yoe.ediv 100 + doy
  era * 146097 + doe - 719468

/-- Inverse of `daysFromCivil`: the canonical civil date (1-based month) of an
epoch-day number. -/
def civilFromDays (z0 : Int) : Int × Int × Int :=
  let z := z0 + 719468
  let era := z.ediv 146097
  let doe := z - era * 146097
  let yoe := (doe - doe.ediv 1460 + doe.ediv 36524 - doe.ediv 146096).ediv 365
  let y := yoe + era * 400
  let doy := doe - (365 * yoe + yoe.ediv 4 - yoe.ediv 100)
  let mp := (5 * doy + 2).ediv 153
  let d := doy - (153 * mp + 2).ediv 5 + 1
  let m := mp + (if mp < 10 then 3 else -9)
  (y + (if m ≤ 2 then 1 else 0), m, d)

/-- ECMAScript `MakeDay`: epoch-day number of year `y`, 0-based month `m`
(normalised into the year by flooring division) and 1-based day `d` (taken
linearly, so out-of-range days roll over). -/
def mkDay (y m d : Int) : Int :=
  daysFromCivil (y + m.ediv 12) (m.emod 12 + 1) d

/-- The canonical `JDate` (the JS getters) of an epoch-day number. -/
def ofDay (z : Int) : JDate :=
  let c := civilFromDays z
  ⟨c.1, c.2.1 - 1, c.2.2⟩

/-- Epoch-day number (the JS time value, at day granularity) of a `JDate`. -/
def toDay (d : JDate) : Int :=
  mkDay d.year d.month d.day

/-- `calculateNextRecurringDate(startDate, interval)` from
`src/lib/inngest/function.js` (identical copy in the transaction actions
module): copies the date and advances it with `setDate(getDate()+1)`,
`setDate(getDate()+7)`, `setMonth(getMonth()+1)` or
`setFullYear(getFullYear()+1)` depending on the interval; an unmatched
interval falls through the `switch` and the copy is returned unchanged.
`interval` is `Option String` so that `none` stands for a missing
(`null`/`undefined`) interval. -/
def calculateNextRecurringDate (startDate : JDate) (interval : Option String) : JDate :=
  if interval = some "DAILY" then
    ofDay (mkDay startDate.year startDate.month (startDate.day + 1))
  else if interval = some "WEEKLY" then
    ofDay (mkDay startDate.year startDate.month (startDate.day + 7))
  else if interval = some "MONTHLY" then
    ofDay (mkDay startDate.year (startDate.month + 1) startDate.day)
  else if interval = some "YEARLY" then
    ofDay (mkDay (startDate.year + 1) startDate.month startDate.day)
  else
    startDate

/-- Day-granularity version of `calculateNextRecurringDate`, acting on epoch
days; used by the stored `nextRecurringDate` timestamps. -/
def nextDay (d : Int) (interval : Option String) : Int :=
  toDay (calculateNextRecurringDate (ofDay d) interval)

/-! ## Data model -/

/-- An `Account` row.  `balance` and the `isDefault` flag are the mutable
fields the embedded operations touch.  `initBalance` is a ghost field
recording the balance the account was created with (the "initial balance" of
the reconciliation invariant); no operation ever modifies it, and
`createAccount` sets it equal to the created balance. -/
structure Account where
  id : Nat
  userId : Nat
  balance : Int
  initBalance : Int
  isDefault : Bool
deriving DecidableEq, Repr

/-- A `Transaction` row.  `type` is `"INCOME"` or `"EXPENSE"`; `amount` is the
stored (positive) decimal; `date`, `lastProcessed` and `nextRecurringDate` are
day-granularity timestamps (epoch days). -/
structure Transaction where
  id : Nat
  userId : Nat
  accountId : Nat
  type : String
  amount : Int
  description : String
  date : Int
  category : String
  isRecurring : Bool
  recurringInterval : Option String
  lastProcessed : Option Int
  nextRecurringDate : Option Int
deriving DecidableEq, Repr

/-- The form payload (`data`) submitted to `createTransaction` /
`updateTransaction`. -/
structure TransactionData where
  accountId : Nat
  type : String
  amount : Int
  description : String
  date : Int
  category : String
  isRecurring : Bool
  recurringInterval : Option String
deriving DecidableEq, Repr

/-- The persistent store: the `Account` and `Transaction` tables. -/
structure DB where
  accounts : List Account
  transactions : List Transaction
deriving DecidableEq, Repr

/-- The signed amount of a persisted transaction: negative for `EXPENSE`,
positive otherwise. -/
def signedAmount (t : Transaction) : Int :=
  if t.type = "EXPENSE" then -t.amount else t.amount

/-- The signed amount of a submitted payload (`data.type === "EXPENSE" ?
-data.amount : data.amount`). -/
def signedData (d : TransactionData) : Int :=
  if d.type = "EXPENSE" then -d.amount else d.amount

/-- Sum of the signed amounts of the transactions of account `aid`. -/
def signedSum : List Transaction → Nat → Int
  | [], _ => 0
  | t :: ts, aid => (if t.accountId = aid then signedAmount t else 0) + signedSum ts aid

/-- The reconciliation invariant: every account's balance equals its initial
balance plus the signed sum of its currently persisted transactions. -/
def balanced (db : DB) : Prop :=
  ∀ a ∈ db.accounts, a.balance = a.initBalance + signedSum db.transactions a.id

instance (db : DB) : Decidable (balanced db) :=
  inferInstanceAs (Decidable (∀ a ∈ db.accounts, _ = _))

/-- Replace the first element satisfying `p` (a row update through a unique
key). -/
def replaceFirst (p : α → Bool) (x : α) : List α → List α
  | [] => []
  | a :: l => if p a then x :: l else a :: replaceFirst p x l

/-! ## Transaction create / update (`actions/transaction.js`) -/

/-- The `nextRecurringDate` stored with a created / updated transaction:
`data.isRecurring && data.recurringInterval ?
calculateNextRecurringDate(data.date, data.recurringInterval) : null`. -/
def dataNextRecurringDate (data : TransactionData) : Option Int :=
  match data.isRecurring, data.recurringInterval with
  | true, some i => some (nextDay data.date (some i))
  | _, _ => none

/-- `createTransaction(data)` for the user `uid` (the authenticated caller),
with `newId` the id Prisma generates for the new row.  Verifies the account
`(data.accountId, uid)` exists (otherwise the action throws, `none`), computes
`newBalance = account.balance + (type === "EXPENSE" ? -amount : amount)`, and
in one atomic unit inserts the row and sets the account balance to
`newBalance`. -/
def createTransaction (db : DB) (uid newId : Nat) (data : TransactionData) : Option DB :=
  match db.accounts.find? (fun a => a.id == data.accountId && a.userId == uid) with
  | none => none
  | some account =>
    let balanceChange := signedData data
    let newBalance := account.balance + balanceChange
    let newTransaction : Transaction :=
      { id := newId, userId := uid, accountId := data.accountId, type := data.type
        amount := data.amount, description := data.description, date := data.date
        category := data.category, isRecurring := data.isRecurring
        recurringInterval := data.recurringInterval
        lastProcessed := none
        nextRecurringDate := dataNextRecurringDate data }
    some { accounts := db.accounts.map (fun a =>
             if a.id = data.accountId then { a with balance := newBalance } else a)
           transactions := db.transactions ++ [newTransaction] }

/-- `updateTransaction(id, data)` for user `uid`.  Fetches the original
transaction `(txId, uid)` (`none` if missing), computes
`netBalanceChange = newBalanceChange - oldBalanceChange`, and in one atomic
unit rewrites the row from `data` and increments the balance of the account
`data.accountId` by `netBalanceChange` (the account update throws and rolls
everything back when no row has that id, hence the existence guard). -/
def updateTransaction (db : DB) (uid txId : Nat) (data : TransactionData) : Option DB :=
  match db.transactions.find? (fun t => t.id == txId && t.userId == uid) with
  | none => none
  | some originalTransaction =>
    if db.accounts.any (fun a => a.id == data.accountId) then
      let oldBalanceChange := signedAmount originalTransaction
      let newBalanceChange := signedData data
      let netBalanceChange := newBalanceChange - oldBalanceChange
      let updated : Transaction :=
        { id := originalTransaction.id, userId := originalTransaction.userId
          accountId := data.accountId, type := data.type
          amount := data.amount, description := data.description, date := data.date
          category := data.category, isRecurring := data.isRecurring
          recurringInterval := data.recurringInterval
          lastProcessed := originalTransaction.lastProcessed
          nextRecurringDate := dataNextRecurringDate data }
      some { accounts := db.accounts.map (fun a =>
               if a.id = data.accountId then
                 { a with balance := a.balance + netBalanceChange } else a)
             transactions :=
               replaceFirst (fun t => t.id == txId && t.userId == uid) updated
                 db.transactions }
    else none

/-! ## Bulk delete (`actions/account.js`) -/

/-- The balance reversal recorded when a transaction is deleted:
`transaction.type === "EXPENSE" ? transaction.amount : -transaction.amount`. -/
def reversalDelta (t : Transaction) : Int :=
  if t.type = "EXPENSE" then t.amount else -t.amount

/-- One step of the numeric JS-object accumulation
`acc[k] = (acc[k] || 0) + c` over plain JS numbers: update the entry in
place, or append a fresh key.  (Used by `getMonthlyStats`' `byCategory`,
where the amounts went through `.toNumber()` first.) -/
def bump [BEq κ] : List (κ × Int) → κ → Int → List (κ × Int)
  | [], k, c => [(k, c)]
  | (k0, v) :: rest, k, c =>
    if k0 == k then (k0, v + c) :: rest else (k0, v) :: bump rest k c

/-- A JS value held in `accountBalanceChanges`: either a number, or a string
(the `+` below concatenates as soon as a raw `Decimal` is involved).  Every
string arising here is a concatenation of decimal numerals; it is described
by whether it still parses as a single decimal integer numeral (`ok`) and,
when it does, by its numeric value `v` (junk otherwise). -/
inductive JSVal where
  | num (n : Int)
  | str (ok : Bool) (v : Int)
deriving DecidableEq, Repr

/-- The `change` computed per deleted transaction:
`transaction.type === "EXPENSE" ? transaction.amount : -transaction.amount`.
The EXPENSE branch passes the raw Prisma `Decimal` object (no
`.toNumber()`); the unary minus of the other branch coerces the `Decimal` to
a number. -/
inductive BalanceChange where
  | dec (a : Int)
  | num (n : Int)
deriving DecidableEq, Repr

def reversalChange (t : Transaction) : BalanceChange :=
  if t.type = "EXPENSE" then BalanceChange.dec t.amount
  else BalanceChange.num (-t.amount)

/-- Number of characters of the decimal numeral of a non-negative integer. -/
def digitsLen (k : Int) : Nat := (Nat.toDigits 10 k.toNat).length

/-- Append the decimal numeral of `k` to a string with parse state
`(ok, v)`: appending a negative `k` writes an interior minus sign, after
which the string never parses again; a non-negative `k` puts its
`digitsLen k` digits behind `v`'s, giving value `v * 10^digitsLen k ± k`
according to `v`'s sign. -/
def appendNumeral (ok : Bool) (v k : Int) : JSVal :=
  if 0 ≤ k then
    JSVal.str ok (if 0 ≤ v then v * (10 : Int) ^ digitsLen k + k
                  else v * (10 : Int) ^ digitsLen k - k)
  else JSVal.str false 0

/-- The JS `+` of the reduce: number + number adds numerically; any operand
that is a raw `Decimal` (whose `valueOf` yields a string) or an accumulated
string makes `+` concatenate the decimal numerals. -/
def jsAdd : JSVal → BalanceChange → JSVal
  | JSVal.num v, BalanceChange.num n => JSVal.num (v + n)
  | JSVal.num v, BalanceChange.dec a => appendNumeral true v a
  | JSVal.str ok v, BalanceChange.num n => appendNumeral ok v n
  | JSVal.str ok v, BalanceChange.dec a => appendNumeral ok v a

/-- `acc[k] = (acc[k] || 0) + change` of the reduce (the `|| 0` only maps a
stored number 0 to itself — the strings here are never empty). -/
def bumpJS : List (Nat × JSVal) → Nat → BalanceChange → List (Nat × JSVal)
  | [], k, c => [(k, jsAdd (JSVal.num 0) c)]
  | (k0, v) :: rest, k, c =>
    if k0 == k then (k0, jsAdd v c) :: rest else (k0, v) :: bumpJS rest k c

/-- The `reduce` building `accountBalanceChanges` from the transactions
about to be deleted. -/
def groupBalanceChanges (ts : List Transaction) : List (Nat × JSVal) :=
  ts.foldl (fun acc t => bumpJS acc t.accountId (reversalChange t)) []

/-- What Prisma's `increment` receives from an entry: a number passes
through; a string is parsed as a `Decimal`, which throws when the string is
not a numeral. -/
def incrementValue : JSVal → Option Int
  | JSVal.num n => some n
  | JSVal.str ok v => if ok then some v else none

/-- The loop over `Object.entries(accountBalanceChanges)`: each entry
increments the balance of the account with that id; a `Decimal` parse
failure throws inside the `$transaction` (`none` = everything rolls
back). -/
def applyBalanceChanges : List Account → List (Nat × JSVal) → Option (List Account)
  | accounts, [] => some accounts
  | accounts, e :: rest =>
    match incrementValue e.2 with
    | none => none
    | some n =>
      applyBalanceChanges
        (accounts.map (fun a =>
          if a.id = e.1 then { a with balance := a.balance + n } else a)) rest

/-- The transactions a bulk delete targets (the `findMany`): id in the
submitted list and owner equal to the caller. -/
def matchedTransactions (db : DB) (uid : Nat) (ids : List Nat) : List Transaction :=
  db.transactions.filter (fun t => ids.contains t.id && t.userId == uid)

/-- `bulkDeleteTransactions(transactionIds)` for user `uid`: fetch the
transactions with `id ∈ transactionIds` and `userId = uid`, run the reduce
above, then in one atomic unit delete those rows and apply one aggregated
balance increment per affected account.  The returned flag is the
`success` field: `true` unless an aggregated string fails `Decimal` parsing,
in which case the `$transaction` rolls back and the catch returns
`success:false` with the store unchanged. -/
def bulkDeleteTransactions (db : DB) (uid : Nat) (transactionIds : List Nat) :
    DB × Bool :=
  let found := matchedTransactions db uid transactionIds
  let accountBalanceChanges := groupBalanceChanges found
  match applyBalanceChanges db.accounts accountBalanceChanges with
  | some accounts =>
    ({ accounts := accounts
       transactions := db.transactions.filter
         (fun t => !(transactionIds.contains t.id && t.userId == uid)) }, true)
  | none => (db, false)

/-! ## Account creation and default switch (`actions/dashboard.js`,
`actions/account.js`) -/

/-- The form payload submitted to `createAccount` (claim-relevant fields). -/
structure AccountData where
  balance : Int
  isDefault : Bool
deriving DecidableEq, Repr

/-- `createAccount(data)` for user `uid`, with `newId` the generated id: the
account is forced default when it is the user's first, otherwise
`data.isDefault` decides; when it will be default, all existing defaults of
the user are cleared first, then the row is inserted. -/
def createAccount (db : DB) (uid newId : Nat) (data : AccountData) : DB :=
  let existingAccounts := db.accounts.filter (fun a => a.userId == uid)
  let shouldBeDefault := if existingAccounts.length = 0 then true else data.isDefault
  let cleared :=
    if shouldBeDefault then
      db.accounts.map (fun a =>
        if a.userId = uid ∧ a.isDefault then { a with isDefault := false } else a)
    else db.accounts
  { db with accounts := cleared ++
      [{ id := newId, userId := uid, balance := data.balance
         initBalance := data.balance, isDefault := shouldBeDefault }] }

/-- `updateDefaultAccount(accountId)` for user `uid`.  First `updateMany`
clears `isDefault` on all of the user's default accounts; then `update` sets
it on the row `(accountId, uid)`.  The two steps are NOT wrapped in a
`$transaction`: when the target row does not exist the second step throws but
the clearing has already been persisted, so the returned flag is `false` and
the store keeps the cleared state. -/
def updateDefaultAccount (db : DB) (uid accountId : Nat) : DB × Bool :=
  let cleared := db.accounts.map (fun a =>
    if a.userId = uid ∧ a.isDefault then { a with isDefault := false } else a)
  if cleared.any (fun a => a.id == accountId && a.userId == uid) then
    ({ db with accounts := cleared.map (fun a =>
         if a.id = accountId ∧ a.userId = uid then { a with isDefault := true } else a) },
     true)
  else
    ({ db with accounts := cleared }, false)

/-! ## Recurring-transaction processing (`src/lib/inngest/function.js`) -/

/-- `isTransactionDue(transaction)` at current time `now`: due when
`lastProcessed` is unset; otherwise compare `new Date(nextRecurringDate)`
(a missing value reads as the epoch, day 0) against today. -/
def isTransactionDue (t : Transaction) (now : Int) : Bool :=
  match t.lastProcessed with
  | none => true
  | some _ => decide (t.nextRecurringDate.getD 0 ≤ now)

/-- The `process-transaction` step of `processRecurringTransaction`, for the
work item `{transactionId, userId}` at current time `now` (`newId` is the id
generated for the created row).  Re-fetches the transaction; if it is missing
or not due the step returns with no effect.  Otherwise one atomic unit
creates the mirrored non-recurring transaction dated now, increments the
account balance by the signed amount, and stamps the original with
`lastProcessed = now` and `nextRecurringDate = calculateNextRecurringDate(now,
recurringInterval)`. -/
def processRecurringTransaction (db : DB) (transactionId uid newId : Nat)
    (now : Int) : DB :=
  match db.transactions.find? (fun t => t.id == transactionId && t.userId == uid) with
  | none => db
  | some transaction =>
    if isTransactionDue transaction now then
      let newTransaction : Transaction :=
        { id := newId, userId := transaction.userId
          accountId := transaction.accountId
          type := transaction.type, amount := transaction.amount
          description := transaction.description ++ " (Recurring)"
          date := now, category := transaction.category
          isRecurring := false, recurringInterval := none
          lastProcessed := none, nextRecurringDate := none }
      let balanceChange := signedAmount transaction
      { accounts := db.accounts.map (fun a =>
          if a.id = transaction.accountId then
            { a with balance := a.balance + balanceChange } else a)
        transactions :=
          replaceFirst (fun t => t.id == transaction.id)
            { transaction with
                lastProcessed := some now
                nextRecurringDate := some (nextDay now transaction.recurringInterval) }
            (db.transactions ++ [newTransaction]) }
    else db

/-! ## Budget alerts (`src/lib/inngest/function.js`) -/

/-- A `Budget` row: the monthly amount and the debounce timestamp. -/
structure Budget where
  amount : Rat
  lastAlertSent : Option JDate
deriving DecidableEq, Repr

/-- `isNewMonth(lastAlertDate, currentDate)`: the two dates differ in
`getMonth()` or in `getFullYear()`. -/
def isNewMonth (lastAlertDate currentDate : JDate) : Bool :=
  lastAlertDate.month != currentDate.month || lastAlertDate.year != currentDate.year

/-- The `check-budget` step of `checkBudgetAlerts` for one budget, at current
time `now`; `totalExpenses` is the value of the month-to-date `EXPENSE`
aggregate over the user's default account.  Computes `percentageUsed =
totalExpenses / budgetAmount * 100`; when it reaches 80 and no alert was sent
this calendar month, sends the notification (the returned flag) and stamps
`lastAlertSent = now`. -/
def checkBudgetAlert (budget : Budget) (totalExpenses : Int) (now : JDate) :
    Budget × Bool :=
  let percentageUsed := (totalExpenses : Rat) / budget.amount * 100
  let shouldSend : Bool :=
    decide (80 ≤ percentageUsed) &&
      (match budget.lastAlertSent with
       | none => true
       | some last => isNewMonth last now)
  if shouldSend then ({ budget with lastAlertSent := some now }, true)
  else (budget, false)

/-! ## Monthly aggregation (`src/lib/inngest/function.js`) -/

/-- The accumulator of `getMonthlyStats`' `reduce`. -/
structure Stats where
  totalExpenses : Int
  totalIncome : Int
  byCategory : List (String × Int)
  transactionCount : Nat
deriving DecidableEq, Repr

/-- One `reduce` step: an `EXPENSE` adds to `totalExpenses` and to its
category bucket, anything else adds to `totalIncome`. -/
def statsStep (stats : Stats) (t : Transaction) : Stats :=
  if t.type = "EXPENSE" then
    { stats with totalExpenses := stats.totalExpenses + t.amount
                 byCategory := bump stats.byCategory t.category t.amount }
  else
    { stats with totalIncome := stats.totalIncome + t.amount }

/-- The transactions fetched by `getMonthlyStats(userId, month)`: the user's
transactions dated between the first and the last day of `month`'s calendar
month (`new Date(y, m, 1)` and `new Date(y, m + 1, 0)`). -/
def monthTransactions (db : DB) (uid : Nat) (month : JDate) : List Transaction :=
  let startDate := mkDay month.year month.month 1
  let endDate := mkDay month.year (month.month + 1) 0
  db.transactions.filter (fun t =>
    t.userId == uid && decide (startDate ≤ t.date) && decide (t.date ≤ endDate))

/-- `getMonthlyStats(userId, month)`: fold the fetched transactions starting
from zero totals, an empty category map, and `transactionCount` fixed to the
number of fetched transactions. -/
def getMonthlyStats (db : DB) (uid : Nat) (month : JDate) : Stats :=
  let transactions := monthTransactions db uid month
  transactions.foldl statsStep
    { totalExpenses := 0, totalIncome := 0, byCategory := []
      transactionCount := transactions.length }

/-! ## Recurring-date engine: theorems -/

/-- `MakeDay` is linear in the day argument: shifting the day field shifts
the time value by the same number of days. -/
theorem mkDay_day_shift (y m d k : Int) : mkDay y m (d + k) = mkDay y m d + k := by
  simp only [mkDay, daysFromCivil]
  ring

/-- C6 (counterexample): on month overflow the platform does not clamp.
`2025-01-31` advanced by `MONTHLY` yields `2025-03-03` (JS `setMonth`
rollover), not the clamped last day of February `2025-02-28`. -/
theorem c6_counterexample :
    calculateNextRecurringDate ⟨2025, 0, 31⟩ (some "MONTHLY") = ⟨2025, 2, 3⟩ ∧
    calculateNextRecurringDate ⟨2025, 0, 31⟩ (some "MONTHLY") ≠ ⟨2025, 1, 28⟩ := by
  constructor
  · decide
  · decide

/-- C6 (amended): `calculateNextRecurringDate` is a pure function advancing
its input by exactly 1 day for `DAILY` and 7 days for `WEEKLY` (as time
values), by one calendar month for `MONTHLY` and one year for `YEARLY` per
the platform `MakeDay` rule (day-of-month overflow rolls over into the
following month rather than clamping); in particular 2025-05-19 with
`MONTHLY` yields 2025-06-19, and 2025-01-31 with `MONTHLY` yields
2025-03-03. -/
theorem c6_next_date_amended :
    (∀ d : JDate, calculateNextRecurringDate d (some "DAILY") = ofDay (toDay d + 1)) ∧
    (∀ d : JDate, calculateNextRecurringDate d (some "WEEKLY") = ofDay (toDay d + 7)) ∧
    (∀ d : JDate, calculateNextRecurringDate d (some "MONTHLY") =
      ofDay (mkDay d.year (d.month + 1) d.day)) ∧
    (∀ d : JDate, calculateNextRecurringDate d (some "YEARLY") =
      ofDay (mkDay (d.year + 1) d.month d.day)) ∧
    calculateNextRecurringDate ⟨2025, 4, 19⟩ (some "MONTHLY") = ⟨2025, 5, 19⟩ ∧
    calculateNextRecurringDate ⟨2025, 0, 31⟩ (some "MONTHLY") = ⟨2025, 2, 3⟩ := by
  refine ⟨fun d => ?_, fun d => ?_, fun d => rfl, fun d => rfl, by decide, by decide⟩
  · show ofDay (mkDay d.year d.month (d.day + 1)) = ofDay (toDay d + 1)
    rw [mkDay_day_shift]; rfl
  · show ofDay (mkDay d.year d.month (d.day + 7)) = ofDay (toDay d + 7)
    rw [mkDay_day_shift]; rfl

/-- C9: an interval value outside the four recognised ones (including a
missing `null`/`undefined` interval, modelled as `none`) leaves the date
unchanged: the `switch` falls through and the copied date is returned
untouched. -/
theorem c9_unknown_interval_noop :
    (∀ d : JDate, calculateNextRecurringDate d none = d) ∧
    (∀ (d : JDate) (s : String), s ≠ "DAILY" → s ≠ "WEEKLY" → s ≠ "MONTHLY" →
      s ≠ "YEARLY" → calculateNextRecurringDate d (some s) = d) := by
  constructor
  · intro d; rfl
  · intro d s h1 h2 h3 h4
    simp [calculateNextRecurringDate, h1, h2, h3, h4]

/-- C9 witness: the unrecognised interval `"HOURLY"` is a no-op on
2025-05-19. -/
theorem c9_unknown_interval_noop_witness :
    calculateNextRecurringDate ⟨2025, 4, 19⟩ (some "HOURLY") = ⟨2025, 4, 19⟩ :=
  c9_unknown_interval_noop.2 ⟨2025, 4, 19⟩ "HOURLY"
    (by decide) (by decide) (by decide) (by decide)

/-! ## Bulk delete: theorems -/

/-- Sum of the values carried by the entries of an association list whose key
is `k`. -/
def entryVals [BEq κ] : List (κ × Int) → κ → Int
  | [], _ => 0
  | e :: rest, k => (if e.1 == k then e.2 else 0) + entryVals rest k

/-- Per-account sum of the reversal deltas of a list of transactions. -/
def reversalSum : List Transaction → Nat → Int
  | [], _ => 0
  | t :: ts, aid =>
    (if t.accountId = aid then reversalDelta t else 0) + reversalSum ts aid

theorem entryVals_bump [BEq κ] [LawfulBEq κ] (l : List (κ × Int)) (k : κ) (c : Int)
    (k' : κ) :
    entryVals (bump l k c) k' = entryVals l k' + (if k == k' then c else 0) := by
  induction l with
  | nil => simp only [bump, entryVals, add_zero, zero_add]
  | cons e rest ih =>
    rcases e with ⟨k0, v⟩
    by_cases h : k0 = k
    · subst h
      simp only [bump, beq_self_eq_true, if_true, entryVals]
      by_cases h' : k0 = k' <;> simp [h'] <;> ring
    · have hb : (k0 == k) = false := beq_eq_false_iff_ne.2 h
      simp only [bump, hb, Bool.false_eq_true, if_false, entryVals, ih]
      ring

theorem contains_eq_decide_mem (l : List Nat) (a : Nat) :
    l.contains a = decide (a ∈ l) :=
  List.elem_eq_mem a l

theorem bumpJS_fresh (acc : List (Nat × JSVal)) (k : Nat) (c : BalanceChange)
    (h : ∀ e ∈ acc, e.1 ≠ k) :
    bumpJS acc k c = acc ++ [(k, jsAdd (JSVal.num 0) c)] := by
  induction acc with
  | nil => rfl
  | cons e rest ih =>
    rcases e with ⟨k0, v⟩
    have hk : (k0 == k) = false :=
      beq_eq_false_iff_ne.2 (h (k0, v) (List.mem_cons_self _ _))
    simp only [bumpJS, hk, Bool.false_eq_true, if_false, List.cons_append]
    rw [ih (fun e he => h e (List.mem_cons_of_mem _ he))]

/-- When the deleted transactions sit on pairwise-distinct accounts, the
reduce never revisits a key: every group is the two-operand value
`0 + change`. -/
theorem foldl_bumpJS_fresh (ts : List Transaction) :
    ∀ acc : List (Nat × JSVal),
      (ts.map Transaction.accountId).Nodup →
      (∀ t ∈ ts, ∀ e ∈ acc, e.1 ≠ t.accountId) →
      ts.foldl (fun acc t => bumpJS acc t.accountId (reversalChange t)) acc
        = acc ++ ts.map (fun t => (t.accountId, jsAdd (JSVal.num 0) (reversalChange t))) := by
  induction ts with
  | nil =>
    intro acc _ _
    simp
  | cons t ts ih =>
    intro acc hnd hacc
    simp only [List.map_cons, List.nodup_cons] at hnd
    obtain ⟨hta, htd⟩ := hnd
    simp only [List.foldl_cons, List.map_cons]
    rw [bumpJS_fresh acc t.accountId _
      (fun e he => hacc t (List.mem_cons_self _ _) e he)]
    have hfresh : ∀ t' ∈ ts,
        ∀ e ∈ acc ++ [(t.accountId, jsAdd (JSVal.num 0) (reversalChange t))],
        e.1 ≠ t'.accountId := by
      intro t' ht' e he
      rcases List.mem_append.1 he with h1 | h1
      · exact hacc t' (List.mem_cons_of_mem _ ht') e h1
      · simp only [List.mem_singleton] at h1
        subst h1
        intro hc
        exact hta (by
          rw [show t.accountId = t'.accountId from hc]
          exact List.mem_map_of_mem Transaction.accountId ht')
    rw [ih _ htd hfresh]
    simp

/-- `0 + change` for a single transaction of non-negative amount is
numerically exact: an INCOME adds numbers, and a single EXPENSE concatenates
onto `"0"`, whose parse recovers exactly the amount. -/
theorem incrementValue_single (t : Transaction) (h : 0 ≤ t.amount) :
    incrementValue (jsAdd (JSVal.num 0) (reversalChange t))
      = some (reversalDelta t) := by
  unfold reversalChange reversalDelta
  by_cases he : t.type = "EXPENSE"
  · simp only [he, if_true, jsAdd, appendNumeral, if_pos h]
    simp [incrementValue]
  · simp [he, jsAdd, incrementValue]

theorem applyBalanceChanges_singles (ts : List Transaction) :
    ∀ accounts : List Account, (∀ t ∈ ts, 0 ≤ t.amount) →
      applyBalanceChanges accounts
          (ts.map (fun t => (t.accountId, jsAdd (JSVal.num 0) (reversalChange t))))
        = some (accounts.map (fun a =>
            { a with balance := a.balance + reversalSum ts a.id })) := by
  induction ts with
  | nil =>
    intro accounts _
    have h : (fun (a : Account) =>
        { a with balance := a.balance + reversalSum [] a.id }) = id := by
      funext a
      simp only [reversalSum, add_zero, id]
    simp [applyBalanceChanges, h]
  | cons t ts ih =>
    intro accounts hpos
    simp only [List.map_cons, applyBalanceChanges,
      incrementValue_single t (hpos t (List.mem_cons_self _ _))]
    rw [ih _ (fun t' ht' => hpos t' (List.mem_cons_of_mem _ ht'))]
    rw [List.map_map]
    congr 1
    congr 1
    funext a
    simp only [Function.comp_apply, reversalSum]
    by_cases h : a.id = t.accountId
    · have hb : t.accountId = a.id := h.symm
      rw [if_pos h, if_pos hb]
      simp only [Account.mk.injEq, true_and, and_true]
      ring
    · have hb : ¬(t.accountId = a.id) := fun hh => h hh.symm
      rw [if_neg h, if_neg hb]
      simp

/-- A bulk delete touching each affected account at most once, with
non-negative amounts, commits with exactly the reversal delta applied per
account and exactly the matched rows removed. -/
theorem bulkDelete_single_exact (db : DB) (uid : Nat) (ids : List Nat)
    (hnd : ((matchedTransactions db uid ids).map Transaction.accountId).Nodup)
    (hpos : ∀ t ∈ matchedTransactions db uid ids, 0 ≤ t.amount) :
    bulkDeleteTransactions db uid ids
      = ({ accounts := db.accounts.map (fun a =>
             { a with balance := a.balance
                 + reversalSum (matchedTransactions db uid ids) a.id })
           transactions := db.transactions.filter
             (fun t => !(ids.contains t.id && t.userId == uid)) }, true) := by
  have h1 : groupBalanceChanges (matchedTransactions db uid ids)
      = (matchedTransactions db uid ids).map
          (fun t => (t.accountId, jsAdd (JSVal.num 0) (reversalChange t))) := by
    have h := foldl_bumpJS_fresh (matchedTransactions db uid ids) [] hnd (by simp)
    simpa [groupBalanceChanges] using h
  simp only [bulkDeleteTransactions]
  rw [h1, applyBalanceChanges_singles (matchedTransactions db uid ids) db.accounts hpos]

/-- Balanced store of user 4: one account (initial 340, balance 170) holding
two EXPENSE transactions, 150 and 20. -/
def c5DB : DB :=
  ⟨[⟨9, 4, 170, 340, true⟩],
   [⟨301, 4, 9, "EXPENSE", 150, "rent", 0, "housing", false, none, none, none⟩,
    ⟨302, 4, 9, "EXPENSE", 20, "taxi", 0, "transportation", false, none, none, none⟩]⟩

/-- Balanced store of user 4: one account (initial 340, balance 220) holding
an EXPENSE 150 and then an INCOME 30. -/
def c5DB2 : DB :=
  ⟨[⟨9, 4, 220, 340, true⟩],
   [⟨311, 4, 9, "EXPENSE", 150, "rent", 0, "housing", false, none, none, none⟩,
    ⟨312, 4, 9, "INCOME", 30, "refund", 0, "misc", false, none, none, none⟩]⟩

/-- C5 (code bug): the reduce's EXPENSE branch passes the raw Prisma
`Decimal` (no `.toNumber()`), whose `valueOf` yields a string, so `+`
concatenates instead of adding.  Deleting the two EXPENSEs 150 and 20 of one
account should add back their numeric reversal sum 170 (first conjunct), but
the code accumulates `0 + Decimal(150) + Decimal(20) = "015020"` and commits
`increment: 15020`, moving the balance from 170 to 15190 while reporting
success (second conjunct).  A group mixing an EXPENSE with a later INCOME
accumulates `"0150-30"`, which fails `Decimal` parsing: the `$transaction`
throws, everything rolls back, and the call returns `success:false` (third
conjunct). -/
theorem c5_bulk_delete_decimal_bug :
    reversalSum (matchedTransactions c5DB 4 [301, 302]) 9 = 170 ∧
    bulkDeleteTransactions c5DB 4 [301, 302]
      = (⟨[⟨9, 4, 15190, 340, true⟩], []⟩, true) ∧
    bulkDeleteTransactions c5DB2 4 [311, 312] = (c5DB2, false) := by
  refine ⟨by decide, by decide, by decide⟩

/-- C10: bulk delete only deletes and reconciles the caller's own matched
transactions.  Any transaction whose id is not targeted or whose owner is
not the caller survives — under both the commit and the rollback outcome —
and when nothing matches (ids that do not exist or belong to other users)
the store is left exactly as it was, rows and balances alike, with the call
returning success. -/
theorem c10_bulk_delete_ownership (db : DB) (uid : Nat) (ids : List Nat) :
    (∀ t ∈ db.transactions, ¬(t.id ∈ ids ∧ t.userId = uid) →
      t ∈ (bulkDeleteTransactions db uid ids).1.transactions) ∧
    ((∀ t ∈ db.transactions, ¬(t.id ∈ ids ∧ t.userId = uid)) →
      bulkDeleteTransactions db uid ids = (db, true)) := by
  have key : ∀ t : Transaction, ¬(t.id ∈ ids ∧ t.userId = uid) →
      (ids.contains t.id && t.userId == uid) = false := by
    intro t hnot
    simp only [contains_eq_decide_mem, Bool.and_eq_false_iff,
      decide_eq_false_iff_not, beq_eq_false_iff_ne, ne_eq]
    tauto
  constructor
  · intro t ht hnot
    unfold bulkDeleteTransactions
    dsimp only
    cases happly : applyBalanceChanges db.accounts
        (groupBalanceChanges (matchedTransactions db uid ids)) with
    | none => exact ht
    | some accounts =>
      show t ∈ db.transactions.filter _
      rw [List.mem_filter]
      exact ⟨ht, by rw [key t hnot]; rfl⟩
  · intro h
    have hmat : matchedTransactions db uid ids = [] :=
      List.filter_eq_nil_iff.2 (fun t ht => by simp only [key t (h t ht)]; decide)
    unfold bulkDeleteTransactions
    dsimp only
    rw [hmat]
    show ((⟨db.accounts, db.transactions.filter _⟩ : DB), true) = (db, true)
    rw [List.filter_eq_self.2
      (fun t ht => by simp only [key t (h t ht), Bool.not_false])]

/-- The store used to witness C10: one account of user 5, one transaction of
a different user 6. -/
def w10DB : DB :=
  ⟨[⟨1, 5, 100, 100, true⟩],
   [⟨40, 6, 1, "INCOME", 10, "salary", 0, "misc", false, none, none, none⟩]⟩

/-- C10 witness: deleting id 40 as user 5 (the row belongs to user 6) leaves
the store untouched and succeeds. -/
theorem c10_bulk_delete_ownership_witness :
    bulkDeleteTransactions w10DB 5 [40] = (w10DB, true) :=
  (c10_bulk_delete_ownership w10DB 5 [40]).2 (by decide)

/-! ## Balance reconciliation: theorems -/

theorem signedSum_append (l1 l2 : List Transaction) (aid : Nat) :
    signedSum (l1 ++ l2) aid = signedSum l1 aid + signedSum l2 aid := by
  induction l1 with
  | nil => simp [signedSum]
  | cons t ts ih =>
    simp only [List.cons_append, signedSum, List.append_eq, ih]
    ring

theorem signedSum_singleton (t : Transaction) (aid : Nat) :
    signedSum [t] aid = if t.accountId = aid then signedAmount t else 0 := by
  simp [signedSum]

theorem signedSum_replaceFirst (p : Transaction → Bool) (y x : Transaction)
    (l : List Transaction) (hf : l.find? p = some x) (aid : Nat) :
    signedSum (replaceFirst p y l) aid
      = signedSum l aid + (if y.accountId = aid then signedAmount y else 0)
        - (if x.accountId = aid then signedAmount x else 0) := by
  induction l with
  | nil => simp at hf
  | cons t ts ih =>
    by_cases h : p t = true
    · rw [List.find?_cons_of_pos ts h] at hf
      injection hf with hx
      subst hx
      simp only [replaceFirst, h, if_true, signedSum]
      ring
    · rw [List.find?_cons_of_neg ts (by simpa using h)] at hf
      simp only [replaceFirst, h, Bool.false_eq_true, if_false, signedSum, ih hf]
      ring

theorem signedSum_filter_partition (q : Transaction → Bool) (l : List Transaction)
    (aid : Nat) :
    signedSum l aid
      = signedSum (l.filter q) aid + signedSum (l.filter (fun t => !q t)) aid := by
  induction l with
  | nil => simp [signedSum]
  | cons t ts ih =>
    by_cases h : q t = true
    · simp only [List.filter_cons, h, Bool.not_true, Bool.false_eq_true, if_false,
        if_true, signedSum, ih]
      ring
    · simp only [List.filter_cons, h, Bool.not_eq_true] at *
      simp only [List.filter_cons, h, Bool.not_false, Bool.false_eq_true, if_false,
        if_true, signedSum, ih]
      ring

theorem reversalSum_eq_neg (l : List Transaction) (aid : Nat) :
    reversalSum l aid = -signedSum l aid := by
  induction l with
  | nil => simp [reversalSum, signedSum]
  | cons t ts ih =>
    simp only [reversalSum, signedSum, ih, reversalDelta, signedAmount]
    by_cases h : t.accountId = aid
    · by_cases h2 : t.type = "EXPENSE" <;> simp [h, h2] <;> ring
    · simp [h]

/-- Balanced two-account store: account 1 (initial 100) holds one INCOME 30
transaction, so its balance is 130; account 2 (initial 50) has none. -/
def cexDB : DB :=
  ⟨[⟨1, 1, 130, 100, true⟩, ⟨2, 1, 50, 50, false⟩],
   [⟨10, 1, 1, "INCOME", 30, "salary", 0, "misc", false, none, none, none⟩]⟩

/-- Resubmission of transaction 10 moving it to account 2 (same type and
amount). -/
def cexMove : TransactionData :=
  ⟨2, "INCOME", 30, "salary", 0, "misc", false, none⟩

/-- The store produced by the moving update: the row now sits on account 2,
but both balances are as before (net delta 0 went to account 2). -/
def cexDB' : DB :=
  ⟨[⟨1, 1, 130, 100, true⟩, ⟨2, 1, 50, 50, false⟩],
   [⟨10, 1, 2, "INCOME", 30, "salary", 0, "misc", false, none, none, none⟩]⟩

/-- C1 (counterexample): the claimed invariant fails on two operations.
First conjunct — an update that moves a transaction to a different account:
starting balanced (account 1 holds the INCOME 30 transaction, balance 130 =
100 + 30; account 2 untouched, balance 50), resubmitting the transaction
with `accountId = 2` applies the net delta 0 to account 2 and leaves account
1 at 130 although it no longer has any transaction.  Second conjunct — a
bulk delete grouping two EXPENSEs (150 and 20) on one account: the reduce
concatenates the raw `Decimal` strings to `"015020"` and commits `increment:
15020` instead of the numeric reversal sum 170, reporting success and
leaving the store unbalanced. -/
theorem c1_counterexample :
    (balanced cexDB ∧
      updateTransaction cexDB 1 10 cexMove = some cexDB' ∧
      ¬ balanced cexDB') ∧
    (balanced c5DB ∧
      (bulkDeleteTransactions c5DB 4 [301, 302]).2 = true ∧
      ¬ balanced (bulkDeleteTransactions c5DB 4 [301, 302]).1) := by
  refine ⟨⟨by decide, by decide, ?_⟩, ⟨by decide, by decide, ?_⟩⟩
  · intro hb
    have h := hb ⟨1, 1, 130, 100, true⟩ (by decide)
    revert h
    decide
  · intro hb
    have h := hb ⟨9, 4, 15190, 340, true⟩ (by decide)
    revert h
    decide

/-- C1 (amended): starting from a balanced store whose account ids are
distinct, the invariant `balance = initial balance + Σ signed persisted
amounts` is preserved by every successful transaction create, by every
successful update whose submitted `accountId` equals the transaction's
current `accountId`, by every bulk delete that fails and rolls back (the
store is then untouched), and by every bulk delete with non-negative amounts
that removes at most one transaction per affected account — each committing
operation adjusting the balances by the exact offsetting delta in the same
atomic state transition as the row mutation.  Excluded, per
`c1_counterexample`: the account-moving update, and bulk deletes grouping
several rows of one account, whose reduce concatenates raw `Decimal` strings
instead of adding. -/
theorem c1_balance_invariant_amended (db : DB)
    (hids : (db.accounts.map Account.id).Nodup) (hbal : balanced db) :
    (∀ (uid newId : Nat) (data : TransactionData) (db' : DB),
      createTransaction db uid newId data = some db' → balanced db') ∧
    (∀ (uid txId : Nat) (data : TransactionData) (orig : Transaction) (db' : DB),
      db.transactions.find? (fun t => t.id == txId && t.userId == uid) = some orig →
      data.accountId = orig.accountId →
      updateTransaction db uid txId data = some db' → balanced db') ∧
    (∀ (uid : Nat) (ids : List Nat),
      (bulkDeleteTransactions db uid ids).2 = false →
      balanced (bulkDeleteTransactions db uid ids).1) ∧
    (∀ (uid : Nat) (ids : List Nat),
      ((matchedTransactions db uid ids).map Transaction.accountId).Nodup →
      (∀ t ∈ matchedTransactions db uid ids, 0 ≤ t.amount) →
      balanced (bulkDeleteTransactions db uid ids).1) := by
  refine ⟨?_, ?_, ?_, ?_⟩
  · -- create
    intro uid newId data db' hc
    cases hfind : db.accounts.find? (fun a => a.id == data.accountId && a.userId == uid) with
    | none => simp [createTransaction, hfind] at hc
    | some account =>
      have hmem := List.mem_of_find?_eq_some hfind
      have hpred := List.find?_some hfind
      simp only [Bool.and_eq_true, beq_iff_eq] at hpred
      simp only [createTransaction, hfind, Option.some.injEq] at hc
      subst hc
      intro a' ha'
      simp only [List.mem_map] at ha'
      obtain ⟨a, ha, rfl⟩ := ha'
      by_cases h : a.id = data.accountId
      · have haeq : a = account :=
          List.inj_on_of_nodup_map hids ha hmem (h.trans hpred.1.symm)
        subst haeq
        rw [if_pos h]
        dsimp only
        rw [signedSum_append, signedSum_singleton]
        dsimp only
        rw [if_pos h.symm, hbal a ha]
        simp only [signedAmount, signedData]
        ring
      · have hda : ¬(data.accountId = a.id) := fun hh => h hh.symm
        rw [if_neg h, signedSum_append, signedSum_singleton]
        dsimp only
        rw [if_neg hda, hbal a ha]
        ring
  · -- update with unchanged accountId
    intro uid txId data orig db' hfind hsame hu
    simp only [updateTransaction, hfind] at hu
    split at hu
    case isFalse => simp at hu
    case isTrue hex =>
      simp only [Option.some.injEq] at hu
      subst hu
      intro a' ha'
      simp only [List.mem_map] at ha'
      obtain ⟨a, ha, rfl⟩ := ha'
      have hrep := signedSum_replaceFirst
        (fun t => t.id == txId && t.userId == uid)
        { id := orig.id, userId := orig.userId, accountId := data.accountId
          type := data.type, amount := data.amount, description := data.description
          date := data.date, category := data.category
          isRecurring := data.isRecurring, recurringInterval := data.recurringInterval
          lastProcessed := orig.lastProcessed
          nextRecurringDate := dataNextRecurringDate data }
        orig db.transactions hfind a.id
      by_cases h : a.id = data.accountId
      · have hda : data.accountId = a.id := h.symm
        have hoa : orig.accountId = a.id := by rw [← hsame]; exact hda
        rw [if_pos h]
        dsimp only
        rw [hrep]
        dsimp only
        rw [if_pos hda, if_pos hoa, hbal a ha]
        simp only [signedAmount, signedData]
        ring
      · have hda : ¬(data.accountId = a.id) := fun hh => h hh.symm
        have hoa : ¬(orig.accountId = a.id) := by rw [← hsame]; exact hda
        rw [if_neg h]
        rw [hrep]
        dsimp only
        rw [if_neg hda, if_neg hoa, hbal a ha]
        ring
  · -- bulk delete, rollback outcome
    intro uid ids hfail
    rcases happly : applyBalanceChanges db.accounts
        (groupBalanceChanges (matchedTransactions db uid ids)) with _ | accounts
    · have heq : bulkDeleteTransactions db uid ids = (db, false) := by
        unfold bulkDeleteTransactions
        dsimp only
        rw [happly]
      rw [heq]
      exact hbal
    · have heq : bulkDeleteTransactions db uid ids
          = ({ accounts := accounts
               transactions := db.transactions.filter
                 (fun t => !(ids.contains t.id && t.userId == uid)) }, true) := by
        unfold bulkDeleteTransactions
        dsimp only
        rw [happly]
      rw [heq] at hfail
      exact Bool.noConfusion hfail
  · -- bulk delete, at most one deleted row per account
    intro uid ids hnd hpos
    rw [bulkDelete_single_exact db uid ids hnd hpos]
    intro a' ha'
    simp only [List.mem_map] at ha'
    obtain ⟨a, ha, rfl⟩ := ha'
    have hsplit := signedSum_filter_partition
      (fun t => ids.contains t.id && t.userId == uid) db.transactions a.id
    have hrev := reversalSum_eq_neg (matchedTransactions db uid ids) a.id
    have hmat : signedSum (matchedTransactions db uid ids) a.id
        = signedSum (db.transactions.filter
            (fun t => ids.contains t.id && t.userId == uid)) a.id := rfl
    show a.balance + reversalSum (matchedTransactions db uid ids) a.id
        = a.initBalance + signedSum (db.transactions.filter
            (fun t => !(ids.contains t.id && t.userId == uid))) a.id
    rw [hrev, hmat, hbal a ha]
    have hsplit' : signedSum (db.transactions.filter
          (fun t => !(ids.contains t.id && t.userId == uid))) a.id
        = signedSum db.transactions a.id
          - signedSum (db.transactions.filter
              (fun t => ids.contains t.id && t.userId == uid)) a.id := by
      rw [hsplit]; ring
    rw [hsplit']
    ring

/-- C1 witness: the amended invariant theorem applied to the concrete
balanced store `cexDB` (distinct account ids), single-row bulk-delete
branch. -/
theorem c1_balance_invariant_amended_witness :
    balanced (bulkDeleteTransactions cexDB 1 [10]).1 :=
  (c1_balance_invariant_amended cexDB (by decide) (by decide)).2.2.2 1 [10]
    (by decide) (by decide)

/-- One account with balance 1000 and no transactions. -/
def ex1000DB : DB := ⟨[⟨1, 1, 1000, 1000, true⟩], []⟩

/-- The EXPENSE 150 submission of the worked example. -/
def exExpense150 : TransactionData :=
  ⟨1, "EXPENSE", 150, "shopping", 0, "misc", false, none⟩

/-- The INCOME 50 resubmission of the worked example. -/
def exIncome50 : TransactionData :=
  ⟨1, "INCOME", 50, "refund", 0, "misc", false, none⟩

/-- C2: an update applies exactly `(new signed amount) − (old signed amount)`
to the account referenced by the submitted `accountId` (first conjunct, in
closed form: the balance of the submitted account is incremented by
`signedData data - signedAmount orig` and the row is rewritten from the
submission).  Concretely (second conjunct): starting from balance 1000,
creating an EXPENSE of 150 leaves 850, and updating that transaction to
INCOME 50 applies the delta `+50 − (−150) = 200`, leaving 1050. -/
theorem c2_update_delta :
    (∀ (db : DB) (uid txId : Nat) (data : TransactionData) (orig : Transaction),
      db.transactions.find? (fun t => t.id == txId && t.userId == uid) = some orig →
      db.accounts.any (fun a => a.id == data.accountId) = true →
      updateTransaction db uid txId data = some
        { accounts := db.accounts.map (fun a =>
            if a.id = data.accountId then
              { a with balance := a.balance + (signedData data - signedAmount orig) }
            else a)
          transactions := replaceFirst (fun t => t.id == txId && t.userId == uid)
            { id := orig.id, userId := orig.userId, accountId := data.accountId
              type := data.type, amount := data.amount, description := data.description
              date := data.date, category := data.category
              isRecurring := data.isRecurring
              recurringInterval := data.recurringInterval
              lastProcessed := orig.lastProcessed
              nextRecurringDate := dataNextRecurringDate data }
            db.transactions }) ∧
    ((createTransaction ex1000DB 1 10 exExpense150).map
        (fun d => d.accounts.map Account.balance) = some [850] ∧
      ((createTransaction ex1000DB 1 10 exExpense150).bind
          (fun db1 => updateTransaction db1 1 10 exIncome50)).map
        (fun d => d.accounts.map Account.balance) = some [1050]) := by
  constructor
  · intro db uid txId data orig hfind hex
    simp only [updateTransaction, hfind, hex, if_true]
  · constructor
    · decide
    · decide

/-- The store after the example create: balance 850, one EXPENSE 150 row. -/
def w2tx : Transaction :=
  ⟨10, 1, 1, "EXPENSE", 150, "shopping", 0, "misc", false, none, none, none⟩

/-- Concrete store for the C2 witness. -/
def w2DB : DB := ⟨[⟨1, 1, 850, 1000, true⟩], [w2tx]⟩

/-- C2 witness: the delta theorem instantiated on the concrete 850-store and
the INCOME 50 resubmission. -/
theorem c2_update_delta_witness :
    updateTransaction w2DB 1 10 exIncome50 = some
      { accounts := w2DB.accounts.map (fun a =>
          if a.id = exIncome50.accountId then
            { a with balance := a.balance + (signedData exIncome50 - signedAmount w2tx) }
          else a)
        transactions := replaceFirst (fun t => t.id == 10 && t.userId == 1)
          { id := w2tx.id, userId := w2tx.userId, accountId := exIncome50.accountId
            type := exIncome50.type, amount := exIncome50.amount
            description := exIncome50.description
            date := exIncome50.date, category := exIncome50.category
            isRecurring := exIncome50.isRecurring
            recurringInterval := exIncome50.recurringInterval
            lastProcessed := w2tx.lastProcessed
            nextRecurringDate := dataNextRecurringDate exIncome50 }
          w2DB.transactions } :=
  c2_update_delta.1 w2DB 1 10 exIncome50 w2tx (by decide) (by decide)

/-! ## Recurring-transaction processing: theorems -/

/-- Recurring MONTHLY transaction that has never been processed (due). -/
def c3tx : Transaction :=
  ⟨20, 2, 3, "EXPENSE", 25, "netflix", 20197, "entertainment", true,
   some "MONTHLY", none, some 20227⟩

/-- Store holding `c3tx` and its account. -/
def c3DB : DB := ⟨[⟨3, 2, 100, 125, false⟩], [c3tx]⟩

/-- C3: the due-check holds exactly when `lastProcessed` is unset or
`nextRecurringDate ≤ now` (first conjunct); processing a fetched transaction
that is not due (`lastProcessed` set and `nextRecurringDate > now`) is a
complete no-op — no row is created and no balance changes (second conjunct);
and in particular running the processing step a second time, at the same
time, after a successful run changes nothing (third conjunct: the concrete
due transaction `c3tx` is processed once at day 20227, and the second run
returns the stored state unchanged). -/
theorem c3_recurring_idempotent :
    (∀ (t : Transaction) (now d : Int), t.nextRecurringDate = some d →
      (isTransactionDue t now = true ↔ (t.lastProcessed = none ∨ d ≤ now))) ∧
    (∀ (db : DB) (transactionId uid newId : Nat) (now : Int) (t : Transaction)
      (d : Int),
      db.transactions.find? (fun s => s.id == transactionId && s.userId == uid)
        = some t →
      t.lastProcessed.isSome = true →
      t.nextRecurringDate = some d →
      now < d →
      processRecurringTransaction db transactionId uid newId now = db) ∧
    (processRecurringTransaction
        (processRecurringTransaction c3DB 20 2 99 20227) 20 2 100 20227
      = processRecurringTransaction c3DB 20 2 99 20227) := by
  refine ⟨?_, ?_, by decide⟩
  · intro t now d hnrd
    cases hlp : t.lastProcessed with
    | none => simp [isTransactionDue, hlp]
    | some lp => simp [isTransactionDue, hlp, hnrd]
  · intro db transactionId uid newId now t d hfind hlp hnrd hlt
    have hdue : isTransactionDue t now = false := by
      obtain ⟨lp, hl⟩ := Option.isSome_iff_exists.1 hlp
      simp [isTransactionDue, hl, hnrd]
      omega
    simp only [processRecurringTransaction, hfind, hdue, Bool.false_eq_true, if_false]

/-- Already-processed recurring transaction, next due at day 20258. -/
def w3tx : Transaction :=
  ⟨20, 2, 3, "EXPENSE", 25, "netflix", 20197, "entertainment", true,
   some "MONTHLY", some 20227, some 20258⟩

/-- Store holding `w3tx` and its account. -/
def w3DB : DB := ⟨[⟨3, 2, 75, 100, false⟩], [w3tx]⟩

/-- C3 witness: processing the non-due `w3tx` at day 20230 leaves the store
untouched. -/
theorem c3_recurring_idempotent_witness :
    processRecurringTransaction w3DB 20 2 100 20230 = w3DB :=
  c3_recurring_idempotent.2.1 w3DB 20 2 100 20230 w3tx 20258
    (by decide) (by decide) (by decide) (by decide)

/-! ## Budget alerts: theorems -/

/-- `a` falls in a strictly earlier calendar month than `b`. -/
def monthEarlier (a b : JDate) : Prop :=
  a.year < b.year ∨ (a.year = b.year ∧ a.month < b.month)

/-- `a`'s calendar month is no later than `b`'s (true of any alert stamped at
or before the current instant). -/
def monthLE (a b : JDate) : Prop :=
  a.year < b.year ∨ (a.year = b.year ∧ a.month ≤ b.month)

instance (a b : JDate) : Decidable (monthEarlier a b) :=
  inferInstanceAs (Decidable (_ ∨ (_ ∧ _)))

instance (a b : JDate) : Decidable (monthLE a b) :=
  inferInstanceAs (Decidable (_ ∨ (_ ∧ _)))

/-- Under the reachability bound `monthLE last now`, the code's
different-month test agrees with the spec's strictly-earlier-month test. -/
theorem isNewMonth_eq_monthEarlier (last now : JDate) (h : monthLE last now) :
    (isNewMonth last now = true) ↔ monthEarlier last now := by
  simp only [isNewMonth, Bool.or_eq_true, bne_iff_ne, ne_eq, monthEarlier]
  simp only [monthLE] at h
  omega

theorem checkBudgetAlert_sent_iff (b : Budget) (e : Int) (now : JDate) :
    (checkBudgetAlert b e now).2 = true ↔
      (80 ≤ (e : Rat) / b.amount * 100 ∧
        (b.lastAlertSent = none ∨
          ∃ last, b.lastAlertSent = some last ∧ isNewMonth last now = true)) := by
  unfold checkBudgetAlert
  cases hl : b.lastAlertSent with
  | none =>
    by_cases hp : (80 : Rat) ≤ (e : Rat) / b.amount * 100 <;> simp [hp]
  | some last =>
    by_cases hp : (80 : Rat) ≤ (e : Rat) / b.amount * 100 <;>
      by_cases hm : isNewMonth last now = true <;> simp [hp, hm]

theorem checkBudgetAlert_state (b : Budget) (e : Int) (now : JDate) :
    ((checkBudgetAlert b e now).2 = true →
      (checkBudgetAlert b e now).1.lastAlertSent = some now) ∧
    ((checkBudgetAlert b e now).2 = false → (checkBudgetAlert b e now).1 = b) := by
  unfold checkBudgetAlert
  split <;> (dsimp only; split <;> simp)

/-- C4: the alert-check step for a budget sends the notification and stamps
`lastAlertSent = now` exactly when `percentageUsed = totalExpenses /
budgetAmount * 100` reaches 80 and the last alert (if any) was stamped in a
strictly earlier calendar month (first three conjuncts; the hypothesis
`monthLE` records that a stored `lastAlertSent` is never in the future, which
holds in every reachable state since alerts are stamped with the current
time).  Consequently (last conjunct) once an alert is sent, any further run
of the check within the same calendar month sends nothing, whatever the
expense total — at most one alert per budget per calendar month. -/
theorem c4_budget_alert (budget : Budget) (totalExpenses : Int) (now : JDate)
    (hle : ∀ last ∈ budget.lastAlertSent, monthLE last now) :
    ((checkBudgetAlert budget totalExpenses now).2 = true ↔
      (80 ≤ (totalExpenses : Rat) / budget.amount * 100 ∧
        (budget.lastAlertSent = none ∨
          ∃ last, budget.lastAlertSent = some last ∧ monthEarlier last now))) ∧
    ((checkBudgetAlert budget totalExpenses now).2 = true →
      (checkBudgetAlert budget totalExpenses now).1.lastAlertSent = some now) ∧
    ((checkBudgetAlert budget totalExpenses now).2 = false →
      (checkBudgetAlert budget totalExpenses now).1 = budget) ∧
    (∀ (e2 : Int) (now2 : JDate),
      (checkBudgetAlert budget totalExpenses now).2 = true →
      now2.month = now.month → now2.year = now.year →
      (checkBudgetAlert (checkBudgetAlert budget totalExpenses now).1 e2 now2).2
        = false) := by
  refine ⟨?_, (checkBudgetAlert_state budget totalExpenses now).1,
    (checkBudgetAlert_state budget totalExpenses now).2, ?_⟩
  · rw [checkBudgetAlert_sent_iff]
    constructor
    · rintro ⟨hp, hor⟩
      refine ⟨hp, ?_⟩
      rcases hor with h | ⟨last, hlast, hm⟩
      · exact Or.inl h
      · exact Or.inr ⟨last, hlast,
          (isNewMonth_eq_monthEarlier last now (hle last hlast)).1 hm⟩
    · rintro ⟨hp, hor⟩
      refine ⟨hp, ?_⟩
      rcases hor with h | ⟨last, hlast, hm⟩
      · exact Or.inl h
      · exact Or.inr ⟨last, hlast,
          (isNewMonth_eq_monthEarlier last now (hle last hlast)).2 hm⟩
  · intro e2 now2 hsent hm hy
    have h1 : (checkBudgetAlert budget totalExpenses now).1.lastAlertSent = some now :=
      (checkBudgetAlert_state budget totalExpenses now).1 hsent
    have hnm : isNewMonth now now2 = false := by
      simp [isNewMonth, hm, hy]
    rw [← Bool.not_eq_true, checkBudgetAlert_sent_iff]
    rintro ⟨-, hor⟩
    rcases hor with h | ⟨last, hlast, hmn⟩
    · rw [h1] at h
      exact Option.some_ne_none now h
    · rw [h1] at hlast
      injection hlast with hlast
      rw [← hlast] at hmn
      rw [hmn] at hnm
      simp at hnm

/-- Budget 4000 whose last alert went out in April 2025. -/
def w4Budget : Budget := ⟨4000, some ⟨2025, 3, 10⟩⟩

/-- The instant 2025-05-15. -/
def w4Now : JDate := ⟨2025, 4, 15⟩

/-- C4 witness: the send-condition characterisation instantiated on the
concrete budget (spec example: expenses 3400 against budget 4000). -/
theorem c4_budget_alert_witness :
    (checkBudgetAlert w4Budget 3400 w4Now).2 = true ↔
      (80 ≤ ((3400 : Int) : Rat) / w4Budget.amount * 100 ∧
        (w4Budget.lastAlertSent = none ∨
          ∃ last, w4Budget.lastAlertSent = some last ∧ monthEarlier last w4Now)) :=
  (c4_budget_alert w4Budget 3400 w4Now (by
    intro last hl
    simp only [w4Budget, Option.mem_def, Option.some.injEq] at hl
    subst hl
    decide)).1

/-! ## Default-account invariant: theorems -/

/-- Number of accounts of `uid` currently flagged default. -/
def countDefaults (db : DB) (uid : Nat) : Nat :=
  db.accounts.countP (fun a => a.userId == uid && a.isDefault)

/-- Number of accounts of `uid`. -/
def countAccounts (db : DB) (uid : Nat) : Nat :=
  db.accounts.countP (fun a => a.userId == uid)

/-- The spec's default-account invariant for one user: at most one default,
and exactly one as soon as the user has an account. -/
def defaultInvariant (db : DB) (uid : Nat) : Prop :=
  countDefaults db uid ≤ 1 ∧ (0 < countAccounts db uid → countDefaults db uid = 1)

/-- Clearing pass of both operations: after it no account of `uid` is
default. -/
theorem countP_clear (l : List Account) (uid : Nat) :
    (l.map (fun a =>
      if a.userId = uid ∧ a.isDefault then { a with isDefault := false } else a)).countP
      (fun a => a.userId == uid && a.isDefault) = 0 := by
  rw [List.countP_map, List.countP_eq_zero]
  intro a _
  by_cases h : a.userId = uid ∧ a.isDefault
  · simp [Function.comp, h]
  · simp only [Function.comp, if_neg h, Bool.and_eq_true, beq_iff_eq]
    exact fun hc => h ⟨hc.1, hc.2⟩

/-- With pairwise-distinct account ids, at most one account satisfies a
predicate that pins the id. -/
theorem countP_id_le_one (l : List Account) (hids : (l.map Account.id).Nodup)
    (aid : Nat) (r : Account → Bool) :
    l.countP (fun a => a.id == aid && r a) ≤ 1 := by
  induction l with
  | nil => simp
  | cons a l ih =>
    simp only [List.map_cons, List.nodup_cons] at hids
    obtain ⟨hna, hnd⟩ := hids
    rw [List.countP_cons]
    by_cases h : (a.id == aid && r a) = true
    · have haid : a.id = aid := by
        simp only [Bool.and_eq_true, beq_iff_eq] at h
        exact h.1
      have hz : l.countP (fun b => b.id == aid && r b) = 0 := by
        rw [List.countP_eq_zero]
        intro b hb hc
        simp only [Bool.and_eq_true, beq_iff_eq] at hc
        exact hna (by
          rw [haid, ← hc.1]
          exact List.mem_map_of_mem Account.id hb)
      simp [h, hz]
    · simp only [h, Bool.false_eq_true, if_false, add_zero]
      exact ih hnd

/-- C7 (counterexample): one account, flagged default; switching the default
to a nonexistent account id clears the flag and then fails, leaving the user
with an account but zero default accounts — the clear and the set are not one
atomic unit. -/
theorem c7_counterexample :
    0 < countAccounts (updateDefaultAccount ⟨[⟨1, 7, 0, 0, true⟩], []⟩ 7 99).1 7 ∧
    countDefaults (updateDefaultAccount ⟨[⟨1, 7, 0, 0, true⟩], []⟩ 7 99).1 7 = 0 ∧
    (updateDefaultAccount ⟨[⟨1, 7, 0, 0, true⟩], []⟩ 7 99).2 = false := by
  refine ⟨by decide, by decide, by decide⟩

/-- C7 (amended): with pairwise-distinct account ids and the invariant
holding beforehand, account creation preserves it outright (at most one
default, exactly one once an account exists); a default switch always leaves
at most one default account; and a default switch that finds its target (the
returned flag) leaves exactly one.  The amendment is forced by
`c7_counterexample`: because the clear step and the set step are not one
atomic unit, a switch whose target account does not exist or is not the
caller's clears the user's default flag and fails, leaving zero defaults. -/
theorem c7_default_invariant_amended (db : DB) (uid : Nat)
    (hids : (db.accounts.map Account.id).Nodup)
    (hinv : defaultInvariant db uid) :
    (∀ (newId : Nat) (data : AccountData),
      defaultInvariant (createAccount db uid newId data) uid) ∧
    (∀ aid : Nat, countDefaults (updateDefaultAccount db uid aid).1 uid ≤ 1) ∧
    (∀ aid : Nat, (updateDefaultAccount db uid aid).2 = true →
      countDefaults (updateDefaultAccount db uid aid).1 uid = 1) := by
  have hpoint : ∀ (aid : Nat) (a : Account),
      ((fun b : Account => b.userId == uid && b.isDefault)
        ((fun b : Account =>
            if b.id = aid ∧ b.userId = uid then { b with isDefault := true } else b)
          ((fun b : Account =>
              if b.userId = uid ∧ b.isDefault then { b with isDefault := false } else b)
            a)))
      = (a.id == aid && a.userId == uid) := by
    intro aid a
    by_cases h2 : a.id = aid <;> by_cases hu : a.userId = uid <;>
      by_cases hd : a.isDefault = true <;>
        simp [h2, hu, hd]
  have hqcount : ∀ aid : Nat,
      ((db.accounts.map (fun a =>
          if a.userId = uid ∧ a.isDefault then { a with isDefault := false } else a)).map
        (fun a => if a.id = aid ∧ a.userId = uid then { a with isDefault := true } else a)).countP
        (fun a => a.userId == uid && a.isDefault)
      = db.accounts.countP (fun a => a.id == aid && a.userId == uid) := by
    intro aid
    rw [List.countP_map, List.countP_map]
    refine List.countP_congr fun x _ => ?_
    simp only [Function.comp_apply, hpoint aid x]
  refine ⟨?_, ?_, ?_⟩
  · -- createAccount preserves the invariant
    intro newId data
    unfold createAccount
    dsimp only
    by_cases h0 : (db.accounts.filter (fun a => a.userId == uid)).length = 0
    · rw [if_pos h0]
      simp only [if_true]
      have hcd : countDefaults
          ⟨(db.accounts.map (fun a =>
              if a.userId = uid ∧ a.isDefault then { a with isDefault := false } else a))
            ++ [{ id := newId, userId := uid, balance := data.balance
                  initBalance := data.balance, isDefault := true }],
            db.transactions⟩ uid = 1 := by
        unfold countDefaults
        dsimp only
        rw [List.countP_append, countP_clear]
        simp [List.countP_cons]
      exact ⟨le_of_eq hcd, fun _ => hcd⟩
    · rw [if_neg h0]
      by_cases hd : data.isDefault = true
      · rw [if_pos hd]
        have hcd : countDefaults
            ⟨(db.accounts.map (fun a =>
                if a.userId = uid ∧ a.isDefault then { a with isDefault := false } else a))
              ++ [{ id := newId, userId := uid, balance := data.balance
                    initBalance := data.balance, isDefault := data.isDefault }],
              db.transactions⟩ uid = 1 := by
          unfold countDefaults
          dsimp only
          rw [List.countP_append, countP_clear]
          simp [List.countP_cons, hd]
        exact ⟨le_of_eq hcd, fun _ => hcd⟩
      · rw [if_neg hd]
        have hpos : 0 < countAccounts db uid := by
          unfold countAccounts
          rw [List.countP_eq_length_filter]
          omega
        have h1 := hinv.2 hpos
        have hcd : countDefaults
            ⟨db.accounts
              ++ [{ id := newId, userId := uid, balance := data.balance
                    initBalance := data.balance, isDefault := data.isDefault }],
              db.transactions⟩ uid = 1 := by
          unfold countDefaults
          dsimp only
          rw [List.countP_append]
          have hone : ([{ id := newId, userId := uid, balance := data.balance,
                          initBalance := data.balance, isDefault := data.isDefault }]
              : List Account).countP (fun a => a.userId == uid && a.isDefault) = 0 := by
            simp [List.countP_cons, hd]
          rw [hone]
          unfold countDefaults at h1
          omega
        exact ⟨le_of_eq hcd, fun _ => hcd⟩
  · -- default switch: always at most one default
    intro aid
    unfold updateDefaultAccount
    dsimp only
    by_cases hex : ((db.accounts.map (fun a =>
        if a.userId = uid ∧ a.isDefault then { a with isDefault := false } else a)).any
          (fun a => a.id == aid && a.userId == uid)) = true
    · rw [if_pos hex]
      unfold countDefaults
      dsimp only
      rw [hqcount aid]
      exact countP_id_le_one db.accounts hids aid _
    · rw [if_neg hex]
      unfold countDefaults
      dsimp only
      rw [countP_clear]
      omega
  · -- successful default switch: exactly one default
    intro aid htrue
    unfold updateDefaultAccount at htrue ⊢
    dsimp only at htrue ⊢
    by_cases hex : ((db.accounts.map (fun a =>
        if a.userId = uid ∧ a.isDefault then { a with isDefault := false } else a)).any
          (fun a => a.id == aid && a.userId == uid)) = true
    · rw [if_pos hex]
      unfold countDefaults
      dsimp only
      rw [hqcount aid]
      have hle := countP_id_le_one db.accounts hids aid (fun a => a.userId == uid)
      have hpos : 0 < db.accounts.countP (fun a => a.id == aid && a.userId == uid) := by
        obtain ⟨x, hx, hqx⟩ := List.any_eq_true.1 hex
        rw [List.mem_map] at hx
        obtain ⟨b, hb, rfl⟩ := hx
        have hqb : (b.id == aid && b.userId == uid) = true := by
          by_cases h1 : b.userId = uid ∧ b.isDefault
          · simp [h1] at hqx
            simp [hqx, h1]
          · simp [h1] at hqx
            simp [hqx]
        exact List.countP_pos_iff.2 ⟨b, hb, hqb⟩
      omega
    · rw [if_neg hex] at htrue
      simp at htrue

instance (db : DB) (uid : Nat) : Decidable (defaultInvariant db uid) :=
  inferInstanceAs (Decidable (_ ∧ (_ → _)))

/-- Two accounts of user 7, the first one default. -/
def w7DB : DB := ⟨[⟨1, 7, 100, 100, true⟩, ⟨2, 7, 50, 50, false⟩], []⟩

/-- C7 witness: the amended theorem applied to `w7DB`, create branch (a
non-default third account keeps exactly one default). -/
theorem c7_default_invariant_amended_witness :
    defaultInvariant (createAccount w7DB 7 3 ⟨20, false⟩) 7 :=
  (c7_default_invariant_amended w7DB 7 (by decide) (by decide)).1 3 ⟨20, false⟩

/-! ## Monthly aggregation: theorems -/

/-- Total of the EXPENSE amounts of a transaction list. -/
def expenseSum : List Transaction → Int
  | [] => 0
  | t :: ts => (if t.type = "EXPENSE" then t.amount else 0) + expenseSum ts

/-- Total of the non-EXPENSE amounts of a transaction list. -/
def incomeSum : List Transaction → Int
  | [] => 0
  | t :: ts => (if t.type = "EXPENSE" then 0 else t.amount) + incomeSum ts

/-- Total of the EXPENSE amounts falling in category `c`. -/
def categorySum : List Transaction → String → Int
  | [], _ => 0
  | t :: ts, c =>
    (if t.type = "EXPENSE" ∧ t.category = c then t.amount else 0) + categorySum ts c

theorem foldl_statsStep (ts : List Transaction) (s : Stats) :
    (ts.foldl statsStep s).totalExpenses = s.totalExpenses + expenseSum ts ∧
    (ts.foldl statsStep s).totalIncome = s.totalIncome + incomeSum ts ∧
    (ts.foldl statsStep s).transactionCount = s.transactionCount ∧
    ∀ c : String, entryVals (ts.foldl statsStep s).byCategory c
      = entryVals s.byCategory c + categorySum ts c := by
  induction ts generalizing s with
  | nil => simp [expenseSum, incomeSum, categorySum]
  | cons t ts ih =>
    rw [List.foldl_cons]
    obtain ⟨h1, h2, h3, h4⟩ := ih (statsStep s t)
    by_cases he : t.type = "EXPENSE"
    · refine ⟨?_, ?_, ?_, ?_⟩
      · rw [h1]
        simp only [statsStep, he, if_true, expenseSum]
        ring
      · rw [h2]
        simp only [statsStep, he, if_true, incomeSum]
        ring
      · rw [h3]
        simp [statsStep, he]
      · intro c
        rw [h4 c]
        simp only [statsStep, he, if_true]
        rw [entryVals_bump]
        simp only [categorySum, he, true_and]
        by_cases hc : t.category = c
        · simp only [hc, beq_self_eq_true, if_true, if_pos rfl]
          ring
        · have hb : (t.category == c) = false := beq_eq_false_iff_ne.2 hc
          simp only [hb, Bool.false_eq_true, if_false, if_neg hc]
          ring
    · refine ⟨?_, ?_, ?_, ?_⟩
      · rw [h1]
        simp only [statsStep, he, Bool.false_eq_true, if_false, expenseSum]
        ring
      · rw [h2]
        simp only [statsStep, he, Bool.false_eq_true, if_false, incomeSum]
        ring
      · rw [h3]
        simp [statsStep, he]
      · intro c
        rw [h4 c]
        simp only [statsStep, he, Bool.false_eq_true, if_false, categorySum,
          false_and]
        ring

/-- C8: `getMonthlyStats` is the pure fold of the fetched transactions (the
user's transactions dated within the month's first and last day): the
resulting `totalExpenses` is the sum of the EXPENSE amounts, `totalIncome`
the sum of all other amounts, each category bucket the sum of the EXPENSE
amounts of that category, and `transactionCount` the number of fetched
transactions. -/
theorem c8_monthly_stats (db : DB) (uid : Nat) (month : JDate) :
    (getMonthlyStats db uid month).totalExpenses
      = expenseSum (monthTransactions db uid month) ∧
    (getMonthlyStats db uid month).totalIncome
      = incomeSum (monthTransactions db uid month) ∧
    (getMonthlyStats db uid month).transactionCount
      = (monthTransactions db uid month).length ∧
    ∀ c : String, entryVals (getMonthlyStats db uid month).byCategory c
      = categorySum (monthTransactions db uid month) c := by
  obtain ⟨h1, h2, h3, h4⟩ := foldl_statsStep (monthTransactions db uid month)
    { totalExpenses := 0, totalIncome := 0, byCategory := []
      transactionCount := (monthTransactions db uid month).length }
  unfold getMonthlyStats
  refine ⟨?_, ?_, ?_, ?_⟩
  · rw [h1]; simp
  · rw [h2]; simp
  · rw [h3]
  · intro c
    rw [h4 c]
    simp [entryVals]

end Welth
